import Mathlib

/-!
Verification development for the chat-app relay and client.

The Go sources are embedded shallowly:
* `MessagePayload` mirrors `messagePayload` (internal/server/server.go and
  internal/client); all fields are strings, absent fields are `""` (Go zero value).
* `Wire` models a `[]byte` buffer travelling through the hub: either opaque
  client bytes forwarded unchanged, or the result of `json.Marshal` on a
  payload built by the hub.  `json.Marshal` on a struct of strings never
  fails and is injective, which the constructor `Wire.json` reflects.
* `HubState`/`hubStep` mirror the `RunHub` event loop (unnamed/part_001):
  `clients` is the `map[*Client]bool` keyed by pointer identity (`cid`),
  `byID` is `map[string]*Client` holding the pointee's `cid`, `undelivered`
  is `map[string][][]byte`.  Buffered channels are lists bounded by
  `sendCap = 256`; a nonblocking send succeeds iff the queue has room.
* `readerStep` mirrors the loop body of `HandleMessage`
  (internal/server/server.go): length check, token bucket, decode and
  dispatch.  A received `[]byte` is observed by the code only through
  `len(msg)` and `json.Unmarshal`, which the `Frame` record captures.
  `runReader` adds the transport behaviour fixed by
  `conn.SetReadLimit(maxMessageSize)`: `ReadMessage` never delivers a
  message over the limit — it returns an error, ending the endpoint.
* The client read loop (internal/client/client.go) becomes `clientReadStep`.
* The session-layer payloads of internal/client/key.go become explicit
  payload constructions, with a real base64 codec.
* `Encrypt`/`Decrypt` (unnamed/part_000) are embedded over a full
  AES-256-GCM (FIPS-197 / NIST SP 800-38D) with bytes as `Nat` masked by
  `% 256`, matching Go's `byte` arithmetic.
-/

namespace ChatApp

/-- Mirror of Go struct `messagePayload`: Type, ID, Recipient, Body, MsgID,
PublicKey, EncryptedKey.  Fields absent in a literal are `""`. -/
structure MessagePayload where
  ty : String
  id : String
  recipient : String
  body : String
  msgId : String
  publicKey : String
  encryptedKey : String
deriving DecidableEq, Repr

/-- A `[]byte` buffer seen by the hub: opaque client bytes, or bytes produced
by `json.Marshal` on a hub-built payload (`jsonMarshal` in part_001, which
never fails on a struct of strings). -/
inductive Wire where
  | raw : String → Wire
  | json : MessagePayload → Wire
deriving DecidableEq, Repr

/-- The ack payload built by the hub (`messagePayload{Type: "ack", Recipient: t.to, Body: b}`);
all other fields take Go's zero value `""`. -/
def ackPayload (toId b : String) : MessagePayload :=
  ⟨"ack", "", toId, b, "", "", ""⟩

/-- Is this wire buffer an encoded ack envelope? -/
def isAckWire : Wire → Bool
  | .json p => p.ty == "ack"
  | .raw _ => false

/-- Go map lookup on an association list (`m[k]`, with the `ok` flag as `Option`). -/
def lookupA {α : Type} : List (String × α) → String → Option α
  | [], _ => none
  | p :: l, k => if p.1 = k then some p.2 else lookupA l k

/-- Go map `delete(m, k)`. -/
def eraseA {α : Type} : List (String × α) → String → List (String × α)
  | [], _ => []
  | p :: l, k => if p.1 = k then eraseA l k else p :: eraseA l k

/-- Go map insert `m[k] = v` (replaces any previous binding). -/
def insertA {α : Type} (l : List (String × α)) (k : String) (v : α) : List (String × α) :=
  (k, v) :: eraseA l k

/-- Mirror of Go struct `Client`: `cid` is the pointer identity of the
`*Client`, `id` its identifier, `send` the contents of the buffered channel
`Send chan []byte` (capacity `sendCap`). -/
structure Client where
  cid : Nat
  id : String
  send : List Wire
deriving DecidableEq, Repr

/-- Capacity of `Send: make(chan []byte, 256)` (internal/server/server.go). -/
def sendCap : Nat := 256

/-- Heap lookup by pointer identity in the `clients` store. -/
def getClient : List Client → Nat → Option Client
  | [], _ => none
  | c :: cs, cid => if c.cid = cid then some c else getClient cs cid

/-- `delete(hub.clients, c)`. -/
def clientsErase : List Client → Nat → List Client
  | [], _ => []
  | c :: cs, cid => if c.cid = cid then clientsErase cs cid else c :: clientsErase cs cid

/-- `hub.clients[c] = true`: keyed by pointer, so any record with the same
pointer identity is replaced. -/
def clientsInsert (cs : List Client) (c : Client) : List Client :=
  c :: clientsErase cs c.cid

/-- Mutate the client object with the given pointer identity in place. -/
def updateClient (cs : List Client) (cid : Nat) (f : Client → Client) : List Client :=
  cs.map (fun d => if d.cid = cid then f d else d)

/-- Nonblocking channel send `select c.Send <- m / default`: succeeds iff the
buffered channel has room. -/
def trySendQueue (q : List Wire) (m : Wire) : List Wire :=
  if q.length < sendCap then q ++ [m] else q

/-- Hub state owned by the `RunHub` goroutine (unnamed/part_001). `stopped`
records that the shutdown case has returned. -/
structure HubState where
  clients : List Client
  byID : List (String × Nat)
  undelivered : List (String × List Wire)
  stopped : Bool
deriving DecidableEq, Repr

/-- The empty hub (`var hub = &Hub{...}` with empty maps). -/
def hubInit : HubState := ⟨[], [], [], false⟩

/-- `hub.byID[k]` dereferenced into the clients store. -/
def byIDClient (s : HubState) (k : String) : Option Client :=
  (lookupA s.byID k).bind (getClient s.clients)

/-- The five events of the `select` in `RunHub`.  `unregister` carries the
fields of the `*Client` handed over (`c` itself, and `c.ID` used for the
`byID` delete). -/
inductive HubEvent where
  | register : Client → HubEvent
  | unregister : Nat → String → HubEvent
  | broadcast : Wire → HubEvent
  | targeted : String → Wire → String → HubEvent
  | shutdown : HubEvent
deriving DecidableEq, Repr

/-- The register case of `RunHub` (part_001 lines 48-75): evict any existing
client under the same id, insert, then drain `undelivered[id]` with
nonblocking sends, discarding what does not fit. -/
def hubRegister (s : HubState) (c : Client) : HubState :=
  let s1 :=
    if c.id ≠ "" then
      match lookupA s.byID c.id with
      | some ecid =>
          { s with clients := clientsErase s.clients ecid, byID := eraseA s.byID c.id }
      | none => s
    else s
  let s2 := { s1 with clients := clientsInsert s1.clients c }
  if c.id ≠ "" then
    let s3 := { s2 with byID := insertA s2.byID c.id c.cid }
    match lookupA s3.undelivered c.id with
    | some queued =>
        { s3 with
          clients := (updateClient s3.clients c.cid
            (fun cl => { cl with send := queued.foldl trySendQueue cl.send })),
          undelivered := eraseA s3.undelivered c.id }
    | none => s3
  else s2

/-- The unregister case (lines 76-84): delete from `clients`, and delete
`byID[c.ID]` unconditionally (no check that the mapping still points at `c`). -/
def hubUnregister (s : HubState) (cid : Nat) (id : String) : HubState :=
  let s1 := { s with clients := clientsErase s.clients cid }
  if id ≠ "" then { s1 with byID := eraseA s1.byID id } else s1

/-- The broadcast case (lines 85-99): nonblocking send to every client; a full
queue evicts the client from both maps. -/
def hubBroadcast (s : HubState) (m : Wire) : HubState :=
  let step := fun (acc : List Client × List (String × Nat)) (c : Client) =>
    if c.send.length < sendCap then
      (acc.1 ++ [{ c with send := c.send ++ [m] }], acc.2)
    else
      (acc.1, if c.id ≠ "" then eraseA acc.2 c.id else acc.2)
  let r := s.clients.foldl step ([], s.byID)
  { s with clients := r.1, byID := r.2 }

/-- Nonblocking ack emission to the sender (the `if t.from != ""` blocks of the
targeted case): marshal the ack and try a nonblocking send to `byID[from]`. -/
def sendAck (s : HubState) (fr toId b : String) : HubState :=
  if fr ≠ "" then
    match lookupA s.byID fr with
    | some scid =>
        { s with clients := (updateClient s.clients scid
            (fun cl => { cl with send := trySendQueue cl.send (.json (ackPayload toId b)) })) }
    | none => s
  else s

/-- The targeted case (lines 100-151): deliver nonblockingly when the recipient
is in `byID`; on a full queue or an absent recipient append to
`undelivered[to]`; in each case try to ack the sender nonblockingly. -/
def hubTargeted (s : HubState) (toId : String) (m : Wire) (fr : String) : HubState :=
  match byIDClient s toId with
  | some dest =>
      if dest.send.length < sendCap then
        let s1 := { s with clients := (updateClient s.clients dest.cid
          (fun cl => { cl with send := cl.send ++ [m] })) }
        sendAck s1 fr toId "delivered"
      else
        let s1 := { s with undelivered := (insertA s.undelivered toId
          (((lookupA s.undelivered toId).getD []) ++ [m])) }
        sendAck s1 fr toId "queued"
  | none =>
      let s1 := { s with undelivered := (insertA s.undelivered toId
        (((lookupA s.undelivered toId).getD []) ++ [m])) }
      sendAck s1 fr toId "queued"

/-- The shutdown case (lines 152-165): close and drop every client, then the
loop returns. -/
def hubShutdown (s : HubState) : HubState :=
  { s with clients := [], byID := [], stopped := true }

/-- One iteration of the `RunHub` select loop; after shutdown no further event
is consumed. -/
def hubStep (s : HubState) (e : HubEvent) : HubState :=
  if s.stopped then s
  else
    match e with
    | .register c => hubRegister s c
    | .unregister cid id => hubUnregister s cid id
    | .broadcast m => hubBroadcast s m
    | .targeted toId m fr => hubTargeted s toId m fr
    | .shutdown => hubShutdown s

/-- Run the hub over a sequence of events. -/
def hubRun (s : HubState) (es : List HubEvent) : HubState :=
  es.foldl hubStep s

/-- The targeted events that queue `msgs` (as sender-wire pairs) for `r`. -/
def targetedEvents (r : String) (msgs : List (String × Wire)) : List HubEvent :=
  msgs.map (fun fm => HubEvent.targeted r fm.2 fm.1)

/-- The ack body chosen by the targeted case for a given recipient lookup. -/
def targetedAckBody (s : HubState) (toId : String) : String :=
  match byIDClient s toId with
  | some d => if d.send.length < sendCap then "delivered" else "queued"
  | none => "queued"

theorem lookupA_cons {α : Type} (p : String × α) (l : List (String × α)) (k : String) :
    lookupA (p :: l) k = if p.1 = k then some p.2 else lookupA l k := rfl

theorem eraseA_cons {α : Type} (p : String × α) (l : List (String × α)) (k : String) :
    eraseA (p :: l) k = if p.1 = k then eraseA l k else p :: eraseA l k := rfl

theorem getClient_cons (c : Client) (cs : List Client) (cid : Nat) :
    getClient (c :: cs) cid = if c.cid = cid then some c else getClient cs cid := rfl

theorem lookupA_eraseA_self {α : Type} (l : List (String × α)) (k : String) :
    lookupA (eraseA l k) k = none := by
  induction l with
  | nil => rfl
  | cons p l ih =>
    rw [eraseA_cons]
    by_cases hp : p.1 = k
    · rw [if_pos hp]; exact ih
    · rw [if_neg hp, lookupA_cons, if_neg hp]; exact ih

theorem lookupA_eraseA_ne {α : Type} (l : List (String × α)) (k k' : String) (h : k' ≠ k) :
    lookupA (eraseA l k) k' = lookupA l k' := by
  induction l with
  | nil => rfl
  | cons p l ih =>
    rw [eraseA_cons, lookupA_cons]
    by_cases hp : p.1 = k
    · have hne : ¬ p.1 = k' := fun hc => h ((hc ▸ hp : k' = k))
      rw [if_pos hp, if_neg hne]
      exact ih
    · rw [if_neg hp, lookupA_cons]
      by_cases hk' : p.1 = k'
      · rw [if_pos hk', if_pos hk']
      · rw [if_neg hk', if_neg hk']; exact ih

theorem lookupA_insertA_self {α : Type} (l : List (String × α)) (k : String) (v : α) :
    lookupA (insertA l k v) k = some v := by
  rw [insertA, lookupA_cons, if_pos rfl]

theorem lookupA_insertA_ne {α : Type} (l : List (String × α)) (k k' : String) (v : α)
    (h : k' ≠ k) : lookupA (insertA l k v) k' = lookupA l k' := by
  rw [insertA, lookupA_cons, if_neg (fun hc => h hc.symm)]
  exact lookupA_eraseA_ne l k k' h

theorem getClient_eq_cid (cs : List Client) (cid : Nat) (c : Client)
    (h : getClient cs cid = some c) : c.cid = cid := by
  induction cs with
  | nil => exact absurd h (by rw [getClient]; exact Option.noConfusion)
  | cons d cs ih =>
    rw [getClient_cons] at h
    by_cases hd : d.cid = cid
    · rw [if_pos hd] at h
      cases h
      exact hd
    · rw [if_neg hd] at h
      exact ih h

theorem getClient_updateClient_self (cs : List Client) (cid : Nat) (f : Client → Client)
    (hf : ∀ c, (f c).cid = c.cid) :
    getClient (updateClient cs cid f) cid = (getClient cs cid).map f := by
  induction cs with
  | nil => rfl
  | cons d cs ih =>
    rw [updateClient, List.map_cons]
    by_cases hd : d.cid = cid
    · rw [if_pos hd, getClient_cons, getClient_cons, if_pos ((hf d).trans hd), if_pos hd]
      rfl
    · rw [if_neg hd, getClient_cons, getClient_cons, if_neg hd, if_neg hd]
      exact ih

theorem getClient_updateClient_ne (cs : List Client) (cid cid' : Nat) (f : Client → Client)
    (hf : ∀ c, (f c).cid = c.cid) (h : cid' ≠ cid) :
    getClient (updateClient cs cid f) cid' = getClient cs cid' := by
  induction cs with
  | nil => rfl
  | cons d cs ih =>
    rw [updateClient, List.map_cons]
    by_cases hd : d.cid = cid
    · have hfd : ¬ d.cid = cid' := fun hc => h ((hc ▸ hd : cid' = cid))
      have hfc : ¬ (f d).cid = cid' := fun hc => hfd (by rw [hf d] at hc; exact hc)
      rw [if_pos hd, getClient_cons, getClient_cons, if_neg hfc, if_neg hfd]
      exact ih
    · rw [if_neg hd, getClient_cons, getClient_cons]
      by_cases hd' : d.cid = cid'
      · rw [if_pos hd', if_pos hd']
      · rw [if_neg hd', if_neg hd']
        exact ih

theorem getClient_clientsInsert_self (cs : List Client) (c : Client) :
    getClient (clientsInsert cs c) c.cid = some c := by
  rw [clientsInsert, getClient_cons, if_pos rfl]

theorem sendAck_byID (s : HubState) (fr toId b : String) :
    (sendAck s fr toId b).byID = s.byID := by
  unfold sendAck
  split
  · split <;> rfl
  · rfl

theorem sendAck_undelivered (s : HubState) (fr toId b : String) :
    (sendAck s fr toId b).undelivered = s.undelivered := by
  unfold sendAck
  split
  · split <;> rfl
  · rfl

theorem sendAck_stopped (s : HubState) (fr toId b : String) :
    (sendAck s fr toId b).stopped = s.stopped := by
  unfold sendAck
  split
  · split <;> rfl
  · rfl

/-- A targeted event whose recipient is not in `byID` leaves `byID` and
`stopped` unchanged and appends the wire to `undelivered[r]`. -/
theorem hubTargeted_offline (s : HubState) (r : String) (m : Wire) (fr : String)
    (hby : lookupA s.byID r = none) :
    (hubTargeted s r m fr).byID = s.byID ∧
    (hubTargeted s r m fr).stopped = s.stopped ∧
    lookupA (hubTargeted s r m fr).undelivered r =
      some (((lookupA s.undelivered r).getD []) ++ [m]) := by
  unfold hubTargeted byIDClient
  rw [hby]
  simp only [Option.bind]
  refine ⟨?_, ?_, ?_⟩
  · rw [sendAck_byID]
  · rw [sendAck_stopped]
  · rw [sendAck_undelivered]
    exact lookupA_insertA_self _ _ _

/-- Folding targeted events for an absent recipient accumulates the wires in
FIFO order in `undelivered[r]`. -/
theorem hubRun_targeted_offline (r : String) (msgs : List (String × Wire)) :
    ∀ (s : HubState) (acc : List Wire), s.stopped = false →
    lookupA s.byID r = none → lookupA s.undelivered r = some acc →
    (hubRun s (targetedEvents r msgs)).stopped = false ∧
    lookupA (hubRun s (targetedEvents r msgs)).byID r = none ∧
    lookupA (hubRun s (targetedEvents r msgs)).undelivered r =
      some (acc ++ msgs.map Prod.snd) := by
  induction msgs with
  | nil =>
    intro s acc h1 h2 h3
    exact ⟨h1, h2, by simpa using h3⟩
  | cons fm msgs ih =>
    intro s acc h1 h2 h3
    have hstep : hubStep s (HubEvent.targeted r fm.2 fm.1) = hubTargeted s r fm.2 fm.1 := by
      unfold hubStep
      rw [h1]
      rfl
    have h := hubTargeted_offline s r fm.2 fm.1 h2
    have h3' : lookupA (hubTargeted s r fm.2 fm.1).undelivered r = some (acc ++ [fm.2]) := by
      rw [h.2.2, h3]
      rfl
    have := ih (hubTargeted s r fm.2 fm.1) (acc ++ [fm.2])
      (by rw [h.2.1, h1]) (by rw [h.1]; exact h2) h3'
    simpa [targetedEvents, hubRun, hstep] using this

/-- The drain loop of the register case: nonblocking sends fill the queue up to
capacity and silently discard the contiguous remainder. -/
theorem foldl_trySendQueue (ms : List Wire) :
    ∀ q0 : List Wire, ms.foldl trySendQueue q0 = q0 ++ ms.take (sendCap - q0.length) := by
  induction ms with
  | nil => intro q0; simp
  | cons m ms ih =>
    intro q0
    by_cases h : q0.length < sendCap
    · rw [List.foldl_cons]
      have ht : trySendQueue q0 m = q0 ++ [m] := by unfold trySendQueue; rw [if_pos h]
      rw [ht, ih]
      have hk : sendCap - q0.length = (sendCap - (q0 ++ [m]).length) + 1 := by
        simp only [List.length_append, List.length_singleton]
        omega
      rw [hk, List.take_succ_cons, List.append_assoc]
      rfl
    · rw [List.foldl_cons]
      have ht : trySendQueue q0 m = q0 := by unfold trySendQueue; rw [if_neg h]
      rw [ht, ih]
      have hk : sendCap - q0.length = 0 := by omega
      rw [hk]
      rfl

/-- The register case with the identifier absent from `byID` and a pending
offline queue: the client is inserted and the queue drained into its send
queue, keeping the first messages that fit; `undelivered[id]` is removed. -/
theorem hubRegister_drain (s : HubState) (c : Client) (q : List Wire)
    (hid : c.id ≠ "") (hby : lookupA s.byID c.id = none)
    (hund : lookupA s.undelivered c.id = some q) :
    getClient (hubRegister s c).clients c.cid =
      some { c with send := c.send ++ q.take (sendCap - c.send.length) } ∧
    lookupA (hubRegister s c).undelivered c.id = none := by
  unfold hubRegister
  simp only [hby, ne_eq, hid, not_false_eq_true, if_true, hund]
  constructor
  · rw [getClient_updateClient_self (clientsInsert s.clients c) c.cid
        (fun cl => { cl with send := List.foldl trySendQueue cl.send q }) (fun _ => rfl)]
    rw [getClient_clientsInsert_self]
    simp only [Option.map_some']
    rw [foldl_trySendQueue]
  · exact lookupA_eraseA_self _ _

/-- The register case with the identifier absent from `byID` and no pending
offline queue: the client is inserted with its send queue unchanged. -/
theorem hubRegister_nodrain (s : HubState) (c : Client)
    (hid : c.id ≠ "") (hby : lookupA s.byID c.id = none)
    (hund : lookupA s.undelivered c.id = none) :
    getClient (hubRegister s c).clients c.cid = some c ∧
    lookupA (hubRegister s c).undelivered c.id = none := by
  unfold hubRegister
  simp only [hby, ne_eq, hid, not_false_eq_true, if_true, hund]
  exact ⟨getClient_clientsInsert_self _ _, trivial⟩

theorem sendAck_clients_some (s : HubState) (fr toId b : String) (scid : Nat)
    (hfr : fr ≠ "") (h : lookupA s.byID fr = some scid) :
    (sendAck s fr toId b).clients = updateClient s.clients scid
      (fun cl => { cl with send := trySendQueue cl.send (.json (ackPayload toId b)) }) := by
  unfold sendAck
  rw [if_pos hfr, h]

/-- C1 (code bug): the event sequence produced by a connection takeover —
register endpoint 1 for id x, register endpoint 2 for id x (evicting 1), the
evicted endpoint 1's handler then delivers its pending unregister, and a third
endpoint registers for x — leaves TWO clients with identifier x in
`hub.clients`, both live.  The stale unregister removed `byID[x]` (which by
then pointed at endpoint 2) without checking identity, so the third register
found no entry to evict and endpoint 2 was never closed. -/
theorem hub_two_live_endpoints_after_stale_unregister :
    (((hubRun hubInit
        [HubEvent.register ⟨1, "x", []⟩, HubEvent.register ⟨2, "x", []⟩,
         HubEvent.unregister 1 "x", HubEvent.register ⟨3, "x", []⟩]).clients.filter
      (fun c => c.id == "x")).length = 2) ∧
    (hubRun hubInit
        [HubEvent.register ⟨1, "x", []⟩, HubEvent.register ⟨2, "x", []⟩,
         HubEvent.unregister 1 "x", HubEvent.register ⟨3, "x", []⟩]).clients =
      [⟨3, "x", []⟩, ⟨2, "x", []⟩] := by
  constructor <;> rfl

/-- The acks present in sender alice's outbound queue after a targeted event
processed while alice's queue is full with 256 non-ack buffers. -/
def fullSenderAckCount : Option Nat :=
  (getClient (hubTargeted
      ⟨[⟨1, "bob", []⟩, ⟨2, "alice", List.replicate sendCap (Wire.raw "x")⟩],
        [("bob", 1), ("alice", 2)], [], false⟩
      "bob" (Wire.raw "hello") "alice").clients 2).map
    (fun c => (c.send.filter isAckWire).length)

set_option maxRecDepth 8192 in
/-- C2 counterexample: recipient bob is connected with room in its queue, so
the envelope is delivered, but the sender alice's outbound queue is full; the
nonblocking ack send is dropped and alice receives ZERO acks, contradicting
the claim that the sender receives exactly one ack (never zero). -/
theorem hub_targeted_zero_acks_on_full_sender_queue :
    fullSenderAckCount = some 0 ∧ ¬ fullSenderAckCount = some 1 := by
  have h : fullSenderAckCount = some 0 := by rfl
  refine ⟨h, ?_⟩
  rw [h]
  decide

/-- C2 (amended): a targeted event for recipient `to` from a nonempty sender
`fr ≠ to` whose endpoint is connected appends AT MOST one ack envelope to the
sender's outbound queue — exactly one (with body `delivered` when the
recipient is connected with queue room, `queued` when the recipient is absent
or its queue is full) when the sender's own queue has room, and zero when it
is full, since the ack is sent nonblockingly. -/
theorem byIDClient_sendAck_some (s : HubState) (fr toId b : String) (scid : Nat)
    (sender : Client) (hfr : fr ≠ "")
    (hlook : lookupA s.byID fr = some scid)
    (hget : getClient s.clients scid = some sender) :
    byIDClient (sendAck s fr toId b) fr =
      some { sender with send := trySendQueue sender.send (.json (ackPayload toId b)) } := by
  rw [byIDClient, sendAck_byID, hlook, Option.some_bind]
  rw [sendAck_clients_some s fr toId b scid hfr hlook]
  rw [getClient_updateClient_self s.clients scid
      (fun cl => { cl with send := trySendQueue cl.send (Wire.json (ackPayload toId b)) })
      (fun _ => rfl), hget]
  rfl

theorem hub_targeted_at_most_one_ack (s : HubState) (toId : String) (m : Wire) (fr : String)
    (sender : Client) (hfr : fr ≠ "")
    (hs : byIDClient s fr = some sender)
    (hcid : ((byIDClient s toId).all (fun d => d.cid != sender.cid)) = true) :
    (byIDClient (hubTargeted s toId m fr) fr).map Client.send =
      some (trySendQueue sender.send (Wire.json (ackPayload toId (targetedAckBody s toId)))) := by
  obtain ⟨scid, hlook, hget⟩ := Option.bind_eq_some.mp hs
  have hscid : sender.cid = scid := getClient_eq_cid _ _ _ hget
  cases hto : byIDClient s toId with
  | none =>
    have hstep : hubTargeted s toId m fr =
        sendAck { s with undelivered := (insertA s.undelivered toId
          (((lookupA s.undelivered toId).getD []) ++ [m])) } fr toId "queued" := by
      unfold hubTargeted
      rw [hto]
    rw [hstep]
    rw [byIDClient_sendAck_some
      { s with undelivered := (insertA s.undelivered toId
        (((lookupA s.undelivered toId).getD []) ++ [m])) }
      fr toId "queued" scid sender hfr (by exact hlook) (by exact hget)]
    unfold targetedAckBody
    rw [hto]
    rfl
  | some dest =>
    have hdcid : dest.cid ≠ sender.cid := by
      rw [hto] at hcid
      simpa using hcid
    have hne2 : scid ≠ dest.cid := fun hc => hdcid (by rw [← hc, hscid])
    by_cases hroom : dest.send.length < sendCap
    · have hstep : hubTargeted s toId m fr =
          sendAck { s with clients := (updateClient s.clients dest.cid
            (fun cl => { cl with send := cl.send ++ [m] })) } fr toId "delivered" := by
        unfold hubTargeted
        rw [hto]
        dsimp only
        rw [if_pos hroom]
      have hget2 : getClient (updateClient s.clients dest.cid
          (fun cl => { cl with send := cl.send ++ [m] })) scid = some sender := by
        rw [getClient_updateClient_ne s.clients dest.cid scid
          (fun cl => { cl with send := cl.send ++ [m] }) (fun _ => rfl) hne2]
        exact hget
      rw [hstep]
      rw [byIDClient_sendAck_some
        { s with clients := (updateClient s.clients dest.cid
          (fun cl => { cl with send := cl.send ++ [m] })) }
        fr toId "delivered" scid sender hfr (by exact hlook) (by exact hget2)]
      unfold targetedAckBody
      rw [hto]
      dsimp only
      rw [if_pos hroom]
      rfl
    · have hstep : hubTargeted s toId m fr =
          sendAck { s with undelivered := (insertA s.undelivered toId
            (((lookupA s.undelivered toId).getD []) ++ [m])) } fr toId "queued" := by
        unfold hubTargeted
        rw [hto]
        dsimp only
        rw [if_neg hroom]
      rw [hstep]
      rw [byIDClient_sendAck_some
        { s with undelivered := (insertA s.undelivered toId
          (((lookupA s.undelivered toId).getD []) ++ [m])) }
        fr toId "queued" scid sender hfr (by exact hlook) (by exact hget)]
      unfold targetedAckBody
      rw [hto]
      dsimp only
      rw [if_neg hroom]
      rfl

/-- Witness for `hub_targeted_at_most_one_ack` at a concrete two-client hub. -/
theorem hub_targeted_at_most_one_ack_witness :
    (byIDClient (hubTargeted ⟨[⟨1, "a", []⟩, ⟨2, "b", []⟩], [("a", 1), ("b", 2)], [], false⟩
        "b" (Wire.raw "hi") "a") "a").map Client.send =
      some (trySendQueue [] (Wire.json (ackPayload "b"
        (targetedAckBody ⟨[⟨1, "a", []⟩, ⟨2, "b", []⟩], [("a", 1), ("b", 2)], [], false⟩ "b")))) :=
  hub_targeted_at_most_one_ack _ "b" _ "a" ⟨1, "a", []⟩ (by decide)
    (by decide) (by decide)

/-- C3: messages targeted at a disconnected recipient `r` accumulate in
`undelivered[r]` in FIFO order, and `r`'s next register drains them into the
new endpoint's outbound queue: the queue receives exactly the first
`sendCap - |queue|` of `m1 … mn` in order (a true prefix when the endpoint
starts empty), the rest — a contiguous suffix — are discarded by the failing
nonblocking sends, and the offline queue entry is removed. -/
theorem offline_messages_drained_fifo (s : HubState) (r : String)
    (msgs : List (String × Wire)) (c : Client)
    (hstop : s.stopped = false) (hr : r ≠ "") (hid : c.id = r)
    (hby : lookupA s.byID r = none) (hund : lookupA s.undelivered r = none) :
    getClient (hubStep (hubRun s (targetedEvents r msgs)) (.register c)).clients c.cid =
      some { c with send := c.send ++ (msgs.map Prod.snd).take (sendCap - c.send.length) } ∧
    lookupA (hubStep (hubRun s (targetedEvents r msgs)) (.register c)).undelivered r = none := by
  subst hid
  cases msgs with
  | nil =>
    have hreg : hubStep (hubRun s (targetedEvents c.id [])) (.register c) = hubRegister s c := by
      show hubStep s (.register c) = hubRegister s c
      unfold hubStep
      rw [hstop]
      rfl
    rw [hreg]
    have h := hubRegister_nodrain s c (by simpa using hr) hby hund
    refine ⟨?_, h.2⟩
    rw [h.1]
    simp
  | cons fm rest =>
    have hstep1 : hubRun s (targetedEvents c.id (fm :: rest)) =
        hubRun (hubTargeted s c.id fm.2 fm.1) (targetedEvents c.id rest) := by
      show hubRun s (HubEvent.targeted c.id fm.2 fm.1 :: targetedEvents c.id rest) = _
      unfold hubRun
      rw [List.foldl_cons]
      show hubRun (hubStep s (HubEvent.targeted c.id fm.2 fm.1)) _ = _
      unfold hubStep
      rw [hstop]
      rfl
    have h1 := hubTargeted_offline s c.id fm.2 fm.1 hby
    have hu1 : lookupA (hubTargeted s c.id fm.2 fm.1).undelivered c.id = some [fm.2] := by
      rw [h1.2.2, hund]
      rfl
    have h2 := hubRun_targeted_offline c.id rest (hubTargeted s c.id fm.2 fm.1) [fm.2]
      (by rw [h1.2.1, hstop]) (by rw [h1.1]; exact hby) hu1
    set s2 := hubRun (hubTargeted s c.id fm.2 fm.1) (targetedEvents c.id rest) with hs2
    have hreg : hubStep s2 (.register c) = hubRegister s2 c := by
      unfold hubStep
      rw [h2.1]
      rfl
    rw [hstep1, hreg]
    have h3 := hubRegister_drain s2 c ([fm.2] ++ rest.map Prod.snd)
      (by simpa using hr) h2.2.1 h2.2.2
    refine ⟨?_, h3.2⟩
    rw [h3.1]
    rfl

/-- Witness for `offline_messages_drained_fifo`: two messages queued for bob
while disconnected are both delivered, in order, on bob's register. -/
theorem offline_messages_drained_fifo_witness :
    getClient (hubStep (hubRun hubInit
        (targetedEvents "bob" [("alice", Wire.raw "m1"), ("alice", Wire.raw "m2")]))
      (.register ⟨7, "bob", []⟩)).clients 7 =
      some ⟨7, "bob", [Wire.raw "m1", Wire.raw "m2"]⟩ := by
  have h := offline_messages_drained_fifo hubInit "bob"
    [("alice", Wire.raw "m1"), ("alice", Wire.raw "m2")] ⟨7, "bob", []⟩
    rfl (by decide) rfl rfl rfl
  exact h.1

/-- `maxMessageSize = 64 * 1024` (internal/server/server.go). -/
def maxMessageSize : Nat := 64 * 1024

/-- A received frame as the reader loop observes it: the code inspects a
`[]byte` only through `len(msg)` and `json.Unmarshal(msg, &payload)`;
`decoded = none` models bytes that do not unmarshal into a payload. -/
structure Frame where
  len : Nat
  decoded : Option MessagePayload
deriving DecidableEq, Repr

/-- What one reader-loop iteration does with a frame (`error` envelopes are
emitted nonblockingly to the reader's own client). -/
inductive ReaderAction where
  | dropOversized
  | rateLimited
  | errRecipientNotFound
  | toTargeted (toId : String) (f : Frame) (fr : String)
  | toBroadcast (f : Frame)
  | terminate
deriving DecidableEq, Repr

/-- The body of the reader loop of `HandleMessage`
(internal/server/server.go lines 118-165) as written, on a received frame,
given the registry contents and the rate limiter's current token count: a
frame over `maxMessageSize` would be dropped with `continue` (lines 125-128 —
under the read limit of `runReader` this branch is unreachable dead code, as
`ReadMessage` never returns such a frame); with no token available an error
envelope is emitted and the frame dropped; otherwise a token is consumed and
the frame is dispatched — decodable with a nonempty registered recipient to
the targeted channel, decodable with an unregistered recipient answered with
an error envelope, anything else (empty recipient OR unmarshal failure) to
the broadcast channel.  Returns the action and the remaining tokens (the
periodic refill goroutine can only add tokens between frames and is not
modelled). -/
def readerStep (registered : List String) (selfId : String) (tokens : Nat) (f : Frame) :
    ReaderAction × Nat :=
  if f.len > maxMessageSize then (.dropOversized, tokens)
  else if tokens = 0 then (.rateLimited, tokens)
  else
    match f.decoded with
    | some p =>
        if p.recipient ≠ "" then
          if registered.contains p.recipient then (.toTargeted p.recipient f selfId, tokens - 1)
          else (.errRecipientNotFound, tokens - 1)
        else (.toBroadcast f, tokens - 1)
    | none => (.toBroadcast f, tokens - 1)

/-- One incoming transport event for the reader: a websocket message of a
given length and decode result, or a transport error (peer closed, timeout). -/
inductive ReadResult where
  | err
  | frame (f : Frame)
deriving DecidableEq, Repr

/-- The reader loop of `HandleMessage`.  `conn.SetReadLimit(maxMessageSize)`
(server.go line 79, gorilla/websocket) makes `ReadMessage` return an error —
never the payload — for an incoming message exceeding the limit, so such a
message breaks the loop exactly like a transport error (`terminate`, after
which `HandleMessage` unregisters and closes).  Messages within the limit are
handed to the loop body `readerStep`. -/
def runReader (registered : List String) (selfId : String) :
    Nat → List ReadResult → List ReaderAction
  | _, [] => []
  | _, .err :: _ => [.terminate]
  | tokens, .frame f :: rest =>
      if f.len > maxMessageSize then [.terminate]
      else
        (readerStep registered selfId tokens f).1 ::
          runReader registered selfId (readerStep registered selfId tokens f).2 rest

/-- C4 counterexample: a frame whose bytes do not decode as an envelope
(within the size limit, with a rate token available) is handed to the hub's
broadcast channel, not dropped — the dispatch condition
`err == nil && payload.Recipient != ""` sends every unmarshal failure down the
broadcast branch. -/
theorem malformed_frame_reaches_broadcast :
    (readerStep ["bob"] "alice" 5 ⟨10, none⟩).1 = ReaderAction.toBroadcast ⟨10, none⟩ ∧
    ¬ (readerStep ["bob"] "alice" 5 ⟨10, none⟩).1 = ReaderAction.dropOversized := by
  decide

/-- C4 (amended): a malformed frame within the size limit, with a rate token
available, does not terminate the connection — the reader consumes a token and
continues with the remaining frames — but the frame IS handed to the hub's
broadcast channel (and so may reach other endpoints) instead of being dropped. -/
theorem malformed_frame_goes_to_broadcast (registered : List String) (selfId : String)
    (tokens : Nat) (f : Frame) (rest : List ReadResult)
    (hdec : f.decoded = none) (hlen : f.len ≤ maxMessageSize) (htok : tokens ≠ 0) :
    runReader registered selfId tokens (.frame f :: rest) =
      ReaderAction.toBroadcast f :: runReader registered selfId (tokens - 1) rest := by
  show (if f.len > maxMessageSize then [ReaderAction.terminate]
    else (readerStep registered selfId tokens f).1 ::
      runReader registered selfId (readerStep registered selfId tokens f).2 rest) = _
  rw [if_neg (by omega)]
  unfold readerStep
  rw [hdec, if_neg (by omega), if_neg htok]

/-- Witness for `malformed_frame_goes_to_broadcast` on one malformed frame. -/
theorem malformed_frame_goes_to_broadcast_witness :
    runReader ["bob"] "alice" 5 [.frame ⟨10, none⟩] =
      ReaderAction.toBroadcast ⟨10, none⟩ :: runReader ["bob"] "alice" 4 [] :=
  malformed_frame_goes_to_broadcast ["bob"] "alice" 5 ⟨10, none⟩ []
    rfl (by decide) (by decide)

/-- C5 (code bug): `conn.SetReadLimit(maxMessageSize)` at server.go line 79
makes `ReadMessage` fail on an incoming message of 65537 bytes, so the reader
loop breaks and the endpoint is unregistered and closed — the oversized
message TERMINATES the endpoint and the following frame is never read,
contrary to the claim's drop-and-continue.  The second conjunct evaluates the
loop body's own length check (server.go lines 125-128), which implements
exactly the dropping behaviour the claim and the spec describe — unreachable
dead code, since the transport never hands such a frame to the body. -/
theorem oversized_message_terminates_endpoint :
    runReader [] "alice" 5 [.frame ⟨65537, none⟩, .frame ⟨3, none⟩] =
      [ReaderAction.terminate] ∧
    (readerStep [] "alice" 5 ⟨65537, none⟩).1 = ReaderAction.dropOversized := by
  constructor <;> rfl

/-- Client-side record of a sent message (`sentMsg` in internal/client/client.go):
text and status; the timestamp field is never read by the status machine and
is omitted. -/
structure SentMsg where
  text : String
  status : String
deriving DecidableEq, Repr

/-- The effect of one decoded payload on the client's `sentMessages` map in
the read loop of `SendAndReceive` (internal/client/client.go lines 140-178):
skip own non-ack envelopes; skip envelopes targeted at someone else; for an
ack with a nonempty `msg_id` matching a tracked message, assign
`msg.Status = payload.Body` — unconditionally, whatever the current status or
the ack body.  No other case touches the map. -/
def clientReadStep (selfId : String) (sent : List (String × SentMsg))
    (p : MessagePayload) : List (String × SentMsg) :=
  if p.id = selfId ∧ p.ty ≠ "ack" then sent
  else if p.recipient ≠ "" ∧ p.recipient ≠ selfId then sent
  else if p.ty = "ack" then
    if p.msgId ≠ "" then
      match lookupA sent p.msgId with
      | some m => insertA sent p.msgId { m with status := p.body }
      | none => sent
    else sent
  else sent

/-- The tracked status of message m1 after the peer's `read` ack arrives
before a `delivered` ack (both addressed to this client and matching m1). -/
def statusAfterLateDelivered : Option SentMsg :=
  lookupA
    (([⟨"ack", "bob", "alice", "read", "m1", "", ""⟩,
       ⟨"ack", "bob", "alice", "delivered", "m1", "", ""⟩] :
        List MessagePayload).foldl (clientReadStep "alice")
      [("m1", ⟨"hi", "sent"⟩)]) "m1"

/-- C6 counterexample: after an ack sequence `read` then `delivered` for the
same msg_id, the tracked status is `delivered` — the late `delivered` ack
overwrote `read`, so the status regressed, contradicting the claim that a
`delivered` ack arriving after `read` leaves the status at `read`. -/
theorem client_ack_status_regression :
    statusAfterLateDelivered = some ⟨"hi", "delivered"⟩ ∧
    ¬ statusAfterLateDelivered = some ⟨"hi", "read"⟩ := by
  decide

/-- C6 (amended): an ack passing the read-loop filters (recipient empty or
this client) whose nonempty `msg_id` matches a tracked message sets that
message's status to the ack's body, unconditionally — repeated or stale acks
overwrite the status, which can move backwards (and can take values outside
sent/delivered/read, e.g. `queued`). -/
theorem client_ack_sets_status_to_body (selfId : String)
    (sent : List (String × SentMsg)) (p : MessagePayload) (m : SentMsg)
    (hty : p.ty = "ack") (hmid : p.msgId ≠ "")
    (hrec : p.recipient = "" ∨ p.recipient = selfId)
    (hm : lookupA sent p.msgId = some m) :
    lookupA (clientReadStep selfId sent p) p.msgId = some { m with status := p.body } := by
  unfold clientReadStep
  rw [if_neg (fun h => h.2 hty)]
  rw [if_neg (fun h => hrec.elim h.1 h.2)]
  rw [if_pos hty, if_pos hmid, hm]
  exact lookupA_insertA_self _ _ _

/-- Witness for `client_ack_sets_status_to_body`: a `queued` ack from the hub
overwrites a `read` status. -/
theorem client_ack_sets_status_to_body_witness :
    lookupA (clientReadStep "alice" [("m1", ⟨"hi", "read"⟩)]
        ⟨"ack", "bob", "alice", "queued", "m1", "", ""⟩) "m1" =
      some ⟨"hi", "queued"⟩ :=
  client_ack_sets_status_to_body "alice" [("m1", ⟨"hi", "read"⟩)]
    ⟨"ack", "bob", "alice", "queued", "m1", "", ""⟩ ⟨"hi", "read"⟩
    rfl (by decide) (Or.inr rfl) rfl

/-- The standard base64 alphabet (RFC 4648), as used by Go's
`base64.StdEncoding`. -/
def b64Chars : List Char :=
  "ABCDEFGHIJKLMNOPQRSTUVWXYZabcdefghijklmnopqrstuvwxyz0123456789+/".toList

/-- The alphabet character for a 6-bit value. -/
def b64Char (n : Nat) : Char := b64Chars.getD n '='

/-- `base64.StdEncoding.EncodeToString` over byte lists: 3-byte groups become
4 characters; a trailing group of 1 or 2 bytes is padded with `=`. -/
def base64encode : List Nat → List Char
  | [] => []
  | [b1] =>
      let n := (b1 % 256) * 65536
      [b64Char (n / 262144), b64Char (n / 4096 % 64), '=', '=']
  | [b1, b2] =>
      let n := (b1 % 256) * 65536 + (b2 % 256) * 256
      [b64Char (n / 262144), b64Char (n / 4096 % 64), b64Char (n / 64 % 64), '=']
  | b1 :: b2 :: b3 :: rest =>
      let n := (b1 % 256) * 65536 + (b2 % 256) * 256 + b3 % 256
      b64Char (n / 262144) :: b64Char (n / 4096 % 64) :: b64Char (n / 64 % 64) ::
        b64Char (n % 64) :: base64encode rest

/-- Index of a character in the alphabet. -/
def b64ValAux : List Char → Nat → Char → Option Nat
  | [], _, _ => none
  | d :: ds, i, c => if d = c then some i else b64ValAux ds (i + 1) c

/-- 6-bit value of an alphabet character (`none` for anything else, including `=`). -/
def b64Val (c : Char) : Option Nat := b64ValAux b64Chars 0 c

/-- `base64.StdEncoding.DecodeString` over character lists: 4-character groups,
padding allowed only in the final group. -/
def base64decode : List Char → Option (List Nat)
  | [] => some []
  | [c1, c2, '=', '='] =>
      match b64Val c1, b64Val c2 with
      | some v1, some v2 =>
          if v2 % 16 = 0 then some [v1 * 4 + v2 / 16] else none
      | _, _ => none
  | [c1, c2, c3, '='] =>
      match b64Val c1, b64Val c2, b64Val c3 with
      | some v1, some v2, some v3 =>
          if v3 % 4 = 0 then some [v1 * 4 + v2 / 16, v2 % 16 * 16 + v3 / 4] else none
      | _, _, _ => none
  | c1 :: c2 :: c3 :: c4 :: rest =>
      match b64Val c1, b64Val c2, b64Val c3, b64Val c4, base64decode rest with
      | some v1, some v2, some v3, some v4, some bs =>
          some ((v1 * 4 + v2 / 16) :: (v2 % 16 * 16 + v3 / 4) :: (v3 % 4 * 64 + v4) :: bs)
      | _, _, _, _, _ => none
  | _ => none

/-- String form of the encoder. -/
def base64encodeStr (bs : List Nat) : String := String.mk (base64encode bs)

/-- String form of the decoder. -/
def base64decodeStr (s : String) : Option (List Nat) := base64decode s.toList

/-- The closure `sendPayload` of `SendAndReceive` (internal/client/key.go):
`sendPayload(body, typ, msgID, to, encryptedKey, publicKey)` builds
`messagePayload{Type: typ, ID: id, Body: body, Recipient: to, MsgID: msgID,
EncryptedKey: encryptedKey, PublicKey: publicKey}`. -/
def sendPayloadMsg (selfId body typ msgID toId encryptedKey publicKey : String) :
    MessagePayload :=
  ⟨typ, selfId, toId, body, msgID, publicKey, encryptedKey⟩

/-- Handshake step 1 announcement (key.go lines 641-651):
`pubMsg := messagePayload{Type: "pubkey", ID: id, Recipient: recipient,
PublicKey: b64Pub}` with `b64Pub = base64(pub)`; every other field is the Go
zero value `""`. -/
def pubkeyAnnouncement (selfId recipient : String) (pub : List Nat) : MessagePayload :=
  ⟨"pubkey", selfId, recipient, "", "", base64encodeStr pub, ""⟩

/-- Handshake step 2 send (key.go lines 600-604):
`enc := base64.StdEncoding.EncodeToString(ctKEM)` followed by
`sendPayload("", "encap_key", "", recipient, enc, "")` — the KEM ciphertext is
passed as the `encryptedKey` argument and the `publicKey` argument is `""`. -/
def encapKeySend (selfId recipient : String) (ctKEM : List Nat) : MessagePayload :=
  sendPayloadMsg selfId "" "encap_key" "" recipient (base64encodeStr ctKEM) ""

/-- Receiver of a `pubkey` envelope (key.go lines 684-696): the value cached
into `peerPub[payload.ID]` is
`base64.StdEncoding.DecodeString(payload.EncryptedKey)` — the `EncryptedKey`
field, not the `PublicKey` field. -/
def pubkeyCachedValue (p : MessagePayload) : Option (List Nat) :=
  base64decodeStr p.encryptedKey

/-- Receiver of an `encap_key` envelope (key.go lines 698-704): the ciphertext
handed to `DecapsulateWithPriv` is
`base64.StdEncoding.DecodeString(payload.PublicKey)` — the `PublicKey` field. -/
def encapCiphertextValue (p : MessagePayload) : Option (List Nat) :=
  base64decodeStr p.publicKey

/-- C7 (code bug): for the encap_key envelope the sender builds, the
`public_key` field is empty and the ciphertext sits in `encrypted_key`; the
receiver decodes `public_key` and therefore decapsulates the empty byte
string, never the actual KEM ciphertext.  Sender and receiver do NOT agree
that the ciphertext travels in `public_key`. -/
theorem encap_key_field_mismatch :
    (encapKeySend "B" "A" [1, 2, 3]).publicKey = "" ∧
    (encapKeySend "B" "A" [1, 2, 3]).encryptedKey = base64encodeStr [1, 2, 3] ∧
    encapCiphertextValue (encapKeySend "B" "A" [1, 2, 3]) = some [] ∧
    ¬ encapCiphertextValue (encapKeySend "B" "A" [1, 2, 3]) = some [1, 2, 3] := by
  refine ⟨rfl, rfl, rfl, ?_⟩
  decide

/-- C8 (code bug): the pubkey announcement carries the sender's public key in
`public_key` with `encrypted_key` empty, but the receiver decodes
`encrypted_key`, so it caches the empty byte string as
`peer_public_key[sender]` — not the sender's public key. -/
theorem pubkey_cached_value_mismatch :
    (pubkeyAnnouncement "A" "B" [7, 8, 9]).publicKey = base64encodeStr [7, 8, 9] ∧
    (pubkeyAnnouncement "A" "B" [7, 8, 9]).encryptedKey = "" ∧
    pubkeyCachedValue (pubkeyAnnouncement "A" "B" [7, 8, 9]) = some [] ∧
    ¬ pubkeyCachedValue (pubkeyAnnouncement "A" "B" [7, 8, 9]) = some [7, 8, 9] := by
  refine ⟨rfl, rfl, rfl, ?_⟩
  decide

/-!
AES-256-GCM as called by `Encrypt`/`Decrypt` in unnamed/part_000
(`aes.NewCipher`, `cipher.NewGCM`, `Seal`, `Open`): the cipher is spelled out
from FIPS-197 and NIST SP 800-38D.  Bytes are `Nat` reduced `% 256` exactly
where Go's `byte` type truncates.
-/

/-- Byte xor. -/
def xor8 (a b : Nat) : Nat := (a ^^^ b) % 256

/-- Multiplication by x in GF(2^8) modulo the AES polynomial 0x11b. -/
def xtime (b : Nat) : Nat :=
  let b := b % 256
  if b < 128 then b * 2 else (b * 2) ^^^ 0x11b

/-- GF(2^8) product, 8 shift-and-add steps. -/
def gf8mulAux : Nat → Nat → Nat → Nat → Nat
  | 0, _, _, acc => acc
  | f + 1, a, b, acc =>
      gf8mulAux f (xtime a) (b / 2) (if b % 2 = 1 then acc ^^^ a else acc)

/-- GF(2^8) product. -/
def gf8mul (a b : Nat) : Nat := gf8mulAux 8 (a % 256) (b % 256) 0

/-- GF(2^8) power. -/
def gf8pow (a : Nat) : Nat → Nat
  | 0 => 1
  | n + 1 => gf8mul a (gf8pow a n)

/-- GF(2^8) inverse (0 maps to 0): a^254. -/
def gf8inv (a : Nat) : Nat := if a % 256 = 0 then 0 else gf8pow a 254

/-- Rotate a byte left by k bits. -/
def rotl8 (c k : Nat) : Nat := ((c % 256) * 2 ^ k + (c % 256) / 2 ^ (8 - k)) % 256

/-- The AES S-box: affine transform of the GF(2^8) inverse (FIPS-197 5.1.1). -/
def sbox (b : Nat) : Nat :=
  let c := gf8inv (b % 256)
  ((((c ^^^ rotl8 c 1) ^^^ rotl8 c 2) ^^^ rotl8 c 3) ^^^ rotl8 c 4) ^^^ 0x63

/-- SubWord of the key schedule. -/
def subWord (w : List Nat) : List Nat := w.map sbox

/-- RotWord of the key schedule. -/
def rotWord : List Nat → List Nat
  | [] => []
  | a :: r => r ++ [a]

/-- Word xor. -/
def xorWord (a b : List Nat) : List Nat := List.zipWith xor8 a b

/-- Round constant x^(j-1). -/
def rconVal (j : Nat) : Nat := gf8pow 2 (j - 1)

/-- Key-schedule expansion step (FIPS-197 5.2 with Nk = 8): append one word. -/
def expandKeyAux : Nat → List (List Nat) → List (List Nat)
  | 0, ws => ws
  | f + 1, ws =>
      let i := ws.length
      let temp := ws.getLastD [0, 0, 0, 0]
      let temp :=
        if i % 8 = 0 then xorWord (subWord (rotWord temp)) [rconVal (i / 8), 0, 0, 0]
        else if i % 8 = 4 then subWord temp
        else temp
      expandKeyAux f (ws ++ [xorWord (ws.getD (i - 8) [0, 0, 0, 0]) temp])

/-- The 60 words of the AES-256 key schedule. -/
def keyWords (key : List Nat) : List (List Nat) :=
  expandKeyAux 52 ((List.range 8).map (fun i => ((key.drop (4 * i)).take 4).map (· % 256)))

/-- Round key r as 16 bytes. -/
def roundKey (ws : List (List Nat)) (r : Nat) : List Nat :=
  ((ws.drop (4 * r)).take 4).flatten

/-- SubBytes on the 16-byte state (bytes in column-major order `state[r + 4c]`). -/
def subBytes (st : List Nat) : List Nat :=
  (List.range 16).map (fun i => sbox (st.getD i 0))

/-- ShiftRows: row r rotated left by r. -/
def shiftRows (st : List Nat) : List Nat :=
  ([0, 5, 10, 15, 4, 9, 14, 3, 8, 13, 2, 7, 12, 1, 6, 11] : List Nat).map
    (fun i => st.getD i 0)

/-- AddRoundKey. -/
def addRoundKey (st rk : List Nat) : List Nat :=
  (List.range 16).map (fun i => xor8 (st.getD i 0) (rk.getD i 0))

/-- MixColumns (FIPS-197 5.1.3). -/
def mixColumns (st : List Nat) : List Nat :=
  (List.range 16).map (fun i =>
    let a := fun r => st.getD (4 * (i / 4) + r) 0
    match i % 4 with
    | 0 => xor8 (xor8 (gf8mul 2 (a 0)) (gf8mul 3 (a 1))) (xor8 (a 2) (a 3))
    | 1 => xor8 (xor8 (a 0) (gf8mul 2 (a 1))) (xor8 (gf8mul 3 (a 2)) (a 3))
    | 2 => xor8 (xor8 (a 0) (a 1)) (xor8 (gf8mul 2 (a 2)) (gf8mul 3 (a 3)))
    | _ => xor8 (xor8 (gf8mul 3 (a 0)) (a 1)) (xor8 (a 2) (gf8mul 2 (a 3))))

/-- A middle AES round. -/
def aesRound (rk st : List Nat) : List Nat :=
  addRoundKey (mixColumns (shiftRows (subBytes st))) rk

/-- The final AES round (no MixColumns). -/
def aesFinalRound (rk st : List Nat) : List Nat :=
  addRoundKey (shiftRows (subBytes st)) rk

/-- AES-256 block encryption: 14 rounds. -/
def aesEncryptBlock (key block : List Nat) : List Nat :=
  let ws := keyWords key
  let st0 := addRoundKey block (roundKey ws 0)
  aesFinalRound (roundKey ws 14)
    ((List.range 13).foldl (fun st r => aesRound (roundKey ws (r + 1)) st) st0)

/-- Big-endian bytes to Nat. -/
def beBytesToNat (bs : List Nat) : Nat := bs.foldl (fun acc b => acc * 256 + b % 256) 0

/-- Nat to n big-endian bytes. -/
def natToBeBytes (n x : Nat) : List Nat :=
  (List.range n).map (fun i => x / 256 ^ (n - 1 - i) % 256)

/-- The GCM reduction constant R = 0xe1 followed by 120 zero bits. -/
def gf128R : Nat := 0xe1000000000000000000000000000000

/-- GF(2^128) product in GCM's bit order (SP 800-38D 6.3), 128 steps over the
bits of x from the most significant down. -/
def gf128mulAux : Nat → Nat → Nat → Nat → Nat
  | 0, _, _, z => z
  | f + 1, x, v, z =>
      gf128mulAux f x (if v % 2 = 1 then (v / 2) ^^^ gf128R else v / 2)
        (if Nat.testBit x f then z ^^^ v else z)

/-- GF(2^128) product. -/
def gf128mul (x y : Nat) : Nat := gf128mulAux 128 x y 0

/-- Split into 16-byte chunks (fuel-based structural recursion). -/
def chunk16Aux : Nat → List Nat → List (List Nat)
  | 0, _ => []
  | _, [] => []
  | f + 1, l => l.take 16 :: chunk16Aux f (l.drop 16)

/-- Split into 16-byte chunks. -/
def chunk16 (l : List Nat) : List (List Nat) := chunk16Aux l.length l

/-- GHASH over whole blocks. -/
def ghash (h : Nat) (blocks : List (List Nat)) : Nat :=
  blocks.foldl (fun y blk => gf128mul (y ^^^ beBytesToNat blk) h) 0

/-- Zero-pad to a multiple of 16 bytes. -/
def padTo16 (l : List Nat) : List Nat :=
  l ++ List.replicate ((16 - l.length % 16) % 16) 0

/-- The CTR keystream of GCM for a 96-bit nonce: counter blocks
`nonce ∥ inc32` starting at 2, truncated to the requested length. -/
def gcmKeystream (key nonce : List Nat) (len : Nat) : List Nat :=
  (((List.range ((len + 15) / 16)).map
      (fun i => aesEncryptBlock key (nonce.take 12 ++ natToBeBytes 4 ((i + 2) % 2 ^ 32)))).flatten).take
    len

/-- The GCM authentication tag over a ciphertext (no associated data, as in
`Seal(nil, nonce, plaintext, nil)`). -/
def gcmTag (key nonce ct : List Nat) : List Nat :=
  let h := beBytesToNat (aesEncryptBlock key (List.replicate 16 0))
  let lenBlock := natToBeBytes 8 0 ++ natToBeBytes 8 (ct.length * 8)
  let s := ghash h (chunk16 (padTo16 ct) ++ [lenBlock])
  let ekj0 := aesEncryptBlock key (nonce.take 12 ++ [0, 0, 0, 1])
  (List.range 16).map (fun i => xor8 ((natToBeBytes 16 s).getD i 0) (ekj0.getD i 0))

/-- `aead.Seal(nil, nonce, plaintext, nil)`: ciphertext then 16-byte tag. -/
def gcmSeal (key nonce plaintext : List Nat) : List Nat :=
  List.zipWith xor8 plaintext (gcmKeystream key nonce plaintext.length) ++
    gcmTag key nonce (List.zipWith xor8 plaintext (gcmKeystream key nonce plaintext.length))

/-- `aead.Open(nil, nonce, data, nil)`: split off the 16-byte tag, recompute
it over the ciphertext, and CTR-decrypt on a match. -/
def gcmOpen (key nonce data : List Nat) : Except String (List Nat) :=
  if data.length < 16 then .error "cipher: message authentication failed"
  else if data.drop (data.length - 16) = gcmTag key nonce (data.take (data.length - 16)) then
    .ok (List.zipWith xor8 (data.take (data.length - 16))
      (gcmKeystream key nonce (data.take (data.length - 16)).length))
  else .error "cipher: message authentication failed"

/-- Lower-case hex alphabet (`hex.EncodeToString`). -/
def hexChars : List Char := "0123456789abcdef".toList

/-- `hex.EncodeToString` over byte lists. -/
def hexEncode (bs : List Nat) : List Char :=
  (bs.map (fun b => [hexChars.getD (b % 256 / 16) '0', hexChars.getD (b % 16) '0'])).flatten

/-- Value of one hex digit (`hex.DecodeString` accepts both cases). -/
def hexVal (c : Char) : Option Nat :=
  if '0' ≤ c ∧ c ≤ '9' then some (c.toNat - 48)
  else if 'a' ≤ c ∧ c ≤ 'f' then some (c.toNat - 87)
  else if 'A' ≤ c ∧ c ≤ 'F' then some (c.toNat - 55)
  else none

/-- `hex.DecodeString` over character lists. -/
def hexDecode : List Char → Option (List Nat)
  | [] => some []
  | [_] => none
  | h :: lo :: rest =>
      match hexVal h, hexVal lo, hexDecode rest with
      | some hv, some lv, some bs => some ((hv * 16 + lv) :: bs)
      | _, _, _ => none

/-- `Encrypt` (unnamed/part_000 lines 68-92): reject keys whose length is not
32, AES-GCM-seal under a random 12-byte nonce (passed here as the `nonce`
argument), and return `hex(nonce ∥ ciphertext)`. -/
def Encrypt (key plaintext nonce : List Nat) : Except String (List Char) :=
  if key.length ≠ 32 then .error "invalid key length: must be 16, 24 or 32 bytes"
  else .ok (hexEncode (nonce ++ gcmSeal key nonce plaintext))

/-- `Decrypt` (unnamed/part_000 lines 95-127): reject keys whose length is not
32, hex-decode, split off the 12-byte nonce, and AES-GCM-open the rest. -/
def Decrypt (key : List Nat) (ciphertextHex : List Char) : Except String (List Nat) :=
  if key.length ≠ 32 then .error "invalid key length: must be 16, 24 or 32 bytes"
  else
    match hexDecode ciphertextHex with
    | none => .error "encoding: invalid hex input"
    | some data =>
        if data.length < 12 then .error "ciphertext too short"
        else gcmOpen key (data.take 12) (data.drop 12)

theorem xor8_lt (a b : Nat) : xor8 a b < 256 :=
  Nat.mod_lt _ (by omega)

theorem xor8_cancel (a b : Nat) (ha : a < 256) (hb : b < 256) :
    xor8 (xor8 a b) b = a := by
  unfold xor8
  have h1 : a ^^^ b < 256 := Nat.xor_lt_two_pow (n := 8) ha hb
  rw [Nat.mod_eq_of_lt h1, Nat.xor_cancel_right, Nat.mod_eq_of_lt ha]

theorem zipWith_xor8_lt (l1 l2 : List Nat) :
    ∀ b ∈ List.zipWith xor8 l1 l2, b < 256 := by
  induction l1 generalizing l2 with
  | nil => simp
  | cons a l1 ih =>
    cases l2 with
    | nil => simp
    | cons c l2 =>
      intro b hb
      rcases List.mem_cons.mp hb with rfl | hb
      · exact xor8_lt a c
      · exact ih l2 b hb

theorem zipWith_xor8_cancel (m : List Nat) :
    ∀ ks : List Nat, m.length ≤ ks.length → (∀ b ∈ m, b < 256) → (∀ b ∈ ks, b < 256) →
    List.zipWith xor8 (List.zipWith xor8 m ks) ks = m := by
  induction m with
  | nil => intro ks _ _ _; simp
  | cons a m ih =>
    intro ks hlen hm hk
    cases ks with
    | nil => simp at hlen
    | cons b ks =>
      simp only [List.zipWith_cons_cons]
      rw [xor8_cancel a b (hm a (List.mem_cons_self a m)) (hk b (List.mem_cons_self b ks))]
      rw [ih ks (by simpa using hlen) (fun x hx => hm x (List.mem_cons_of_mem _ hx))
        (fun x hx => hk x (List.mem_cons_of_mem _ hx))]

theorem length_aesEncryptBlock (key block : List Nat) :
    (aesEncryptBlock key block).length = 16 := by
  simp [aesEncryptBlock, aesFinalRound, addRoundKey]

theorem aesEncryptBlock_lt (key block : List Nat) :
    ∀ b ∈ aesEncryptBlock key block, b < 256 := by
  intro b hb
  simp only [aesEncryptBlock, aesFinalRound, addRoundKey, List.mem_map] at hb
  obtain ⟨i, _, rfl⟩ := hb
  exact xor8_lt _ _

theorem length_gcmKeystream (key nonce : List Nat) (len : Nat) :
    (gcmKeystream key nonce len).length = len := by
  rw [gcmKeystream, List.length_take, List.length_flatten, List.map_map]
  have h : (List.range ((len + 15) / 16)).map
      (List.length ∘ fun i =>
        aesEncryptBlock key (nonce.take 12 ++ natToBeBytes 4 ((i + 2) % 2 ^ 32))) =
      (List.range ((len + 15) / 16)).map (fun _ => 16) := by
    apply List.map_congr_left
    intro i _
    exact length_aesEncryptBlock _ _
  rw [h, List.map_const', List.sum_replicate, List.length_range, smul_eq_mul]
  have h2 := Nat.div_add_mod (len + 15) 16
  have h3 : (len + 15) % 16 < 16 := Nat.mod_lt _ (by omega)
  omega

theorem gcmKeystream_lt (key nonce : List Nat) (len : Nat) :
    ∀ b ∈ gcmKeystream key nonce len, b < 256 := by
  intro b hb
  rw [gcmKeystream] at hb
  have hb2 := List.mem_of_mem_take hb
  obtain ⟨l, hl, hbl⟩ := List.mem_flatten.mp hb2
  obtain ⟨i, _, rfl⟩ := List.mem_map.mp hl
  exact aesEncryptBlock_lt _ _ b hbl

theorem length_gcmTag (key nonce ct : List Nat) : (gcmTag key nonce ct).length = 16 := by
  simp [gcmTag]

theorem gcmTag_lt (key nonce ct : List Nat) : ∀ b ∈ gcmTag key nonce ct, b < 256 := by
  intro b hb
  simp only [gcmTag, List.mem_map] at hb
  obtain ⟨i, _, rfl⟩ := hb
  exact xor8_lt _ _

theorem gcmSeal_lt (key nonce m : List Nat) : ∀ b ∈ gcmSeal key nonce m, b < 256 := by
  intro b hb
  rcases List.mem_append.mp hb with h | h
  · exact zipWith_xor8_lt _ _ b h
  · exact gcmTag_lt _ _ _ b h

theorem gcmOpen_gcmSeal (key nonce m : List Nat) (hm : ∀ b ∈ m, b < 256) :
    gcmOpen key nonce (gcmSeal key nonce m) = .ok m := by
  have hkslen := length_gcmKeystream key nonce m.length
  have hctlen : (List.zipWith xor8 m (gcmKeystream key nonce m.length)).length = m.length := by
    rw [List.length_zipWith, hkslen, Nat.min_self]
  have hlen2 : (gcmSeal key nonce m).length = m.length + 16 := by
    rw [gcmSeal, List.length_append, hctlen, length_gcmTag]
  have hsub : (gcmSeal key nonce m).length - 16 =
      (List.zipWith xor8 m (gcmKeystream key nonce m.length)).length := by
    rw [hlen2, hctlen]
    omega
  have htake : (gcmSeal key nonce m).take ((gcmSeal key nonce m).length - 16) =
      List.zipWith xor8 m (gcmKeystream key nonce m.length) := by
    rw [hsub]
    exact List.take_left' rfl
  have hdrop : (gcmSeal key nonce m).drop ((gcmSeal key nonce m).length - 16) =
      gcmTag key nonce (List.zipWith xor8 m (gcmKeystream key nonce m.length)) := by
    rw [hsub]
    exact List.drop_left' rfl
  rw [gcmOpen, if_neg (by omega), htake, hdrop, if_pos rfl, hctlen]
  rw [zipWith_xor8_cancel m (gcmKeystream key nonce m.length) (by omega) hm
    (gcmKeystream_lt key nonce m.length)]

theorem hexVal_hexChar : ∀ n < 16, hexVal (hexChars.getD n '0') = some n := by
  decide

theorem hexDecode_hexEncode (bs : List Nat) (h : ∀ b ∈ bs, b < 256) :
    hexDecode (hexEncode bs) = some bs := by
  induction bs with
  | nil => rfl
  | cons b bs ih =>
    have hb : b < 256 := h b (List.mem_cons_self b bs)
    have hmod : b % 256 = b := Nat.mod_eq_of_lt hb
    have hstep : hexEncode (b :: bs) =
        hexChars.getD (b % 256 / 16) '0' :: hexChars.getD (b % 16) '0' :: hexEncode bs := rfl
    rw [hstep]
    have h1 : hexVal (hexChars.getD (b % 256 / 16) '0') = some (b % 256 / 16) :=
      hexVal_hexChar _ (by omega)
    have h2 : hexVal (hexChars.getD (b % 16) '0') = some (b % 16) :=
      hexVal_hexChar _ (by omega)
    simp only [hexDecode, h1, h2, ih (fun x hx => h x (List.mem_cons_of_mem _ hx))]
    have : b % 256 / 16 * 16 + b % 16 = b := by omega
    rw [this]

/-- C9: for every key of exactly 32 bytes, every 12-byte nonce drawn during
encryption, and every plaintext of at most 16 KiB (bytes in range, as Go's
`byte` guarantees), `Encrypt` produces `hex(nonce ∥ AES-256-GCM ciphertext ∥ tag)`
and `Decrypt` with the same key splits off the 12-byte nonce, authenticates,
and recovers the plaintext exactly. -/
theorem Encrypt_Decrypt_roundtrip (key nonce m : List Nat)
    (hk : key.length = 32) (hn : nonce.length = 12)
    (hnb : ∀ b ∈ nonce, b < 256) (hmb : ∀ b ∈ m, b < 256)
    (_hsz : m.length ≤ 16384) :
    ∃ out, Encrypt key m nonce = .ok out ∧ Decrypt key out = .ok m := by
  refine ⟨hexEncode (nonce ++ gcmSeal key nonce m), ?_, ?_⟩
  · rw [Encrypt, if_neg (by omega)]
  · rw [Decrypt, if_neg (by omega)]
    have hall : ∀ b ∈ nonce ++ gcmSeal key nonce m, b < 256 := by
      intro b hb
      rcases List.mem_append.mp hb with h | h
      · exact hnb b h
      · exact gcmSeal_lt key nonce m b h
    rw [hexDecode_hexEncode _ hall]
    have hdlen : (nonce ++ gcmSeal key nonce m).length = 12 + (gcmSeal key nonce m).length := by
      rw [List.length_append, hn]
    show (if (nonce ++ gcmSeal key nonce m).length < 12 then
        Except.error "ciphertext too short"
      else gcmOpen key ((nonce ++ gcmSeal key nonce m).take 12)
        ((nonce ++ gcmSeal key nonce m).drop 12)) = Except.ok m
    rw [if_neg (by omega), List.take_left' hn, List.drop_left' hn]
    exact gcmOpen_gcmSeal key nonce m hmb

/-- Witness for `Encrypt_Decrypt_roundtrip` at a zero key, zero nonce and the
two-byte plaintext `hi`. -/
theorem Encrypt_Decrypt_roundtrip_witness :
    ∃ out, Encrypt (List.replicate 32 0) [104, 105] (List.replicate 12 0) = .ok out ∧
      Decrypt (List.replicate 32 0) out = .ok [104, 105] :=
  Encrypt_Decrypt_roundtrip (List.replicate 32 0) (List.replicate 12 0) [104, 105]
    (by decide) (by decide) (by decide) (by decide) (by decide)

/-- C10: both `Encrypt` and `Decrypt` reject every key whose length is not
exactly 32 bytes before any cryptographic work — including the 16- and
24-byte keys that the returned error message wrongly names as acceptable. -/
theorem non32_byte_keys_rejected (key m nonce : List Nat) (s : List Char)
    (h : key.length ≠ 32) :
    Encrypt key m nonce = .error "invalid key length: must be 16, 24 or 32 bytes" ∧
    Decrypt key s = .error "invalid key length: must be 16, 24 or 32 bytes" := by
  rw [Encrypt, Decrypt, if_pos h, if_pos h]
  exact ⟨rfl, rfl⟩

/-- Witness for `non32_byte_keys_rejected` at a 16-byte key — one of the
lengths the error message itself claims to accept. -/
theorem non32_byte_keys_rejected_witness :
    Encrypt (List.replicate 16 0) [1] [2] =
      .error "invalid key length: must be 16, 24 or 32 bytes" ∧
    Decrypt (List.replicate 16 0) [] =
      .error "invalid key length: must be 16, 24 or 32 bytes" :=
  non32_byte_keys_rejected (List.replicate 16 0) [1] [2] [] (by decide)

end ChatApp
